import Mathlib

/-!
Verification development for two vdsm subsystems:
* the storage domain monitor (`vdsm/storage/domainMonitor.py`),
* the network setup API (`lib/vdsm/network/api.py` and
  `lib/vdsm/network/link/bond/sysfs_options_mapper.py`).

Stateful Python code is embedded as pure state-passing functions; externally
observable side effects (sysfs writes, libvirt calls, sanlock calls, event
emission, running-config persistence) are recorded as explicit event traces.
Outcomes of external probes (storage selftest, sysfs reads, ...) are supplied
through environment records, one per loop tick or per written value.
-/

set_option linter.unusedVariables false

namespace Vdsm

/-! ## Storage domain monitor (`vdsm/storage/domainMonitor.py`)

`DomainMonitorStatus.clear` mirrors the Python `clear()`: `error = None`,
`valid = True`, `readDelay = 0`, utilizations reset, `isoPrefix = None`
(field named `isoPfx` here), `version = -1`.  `checkTime` is a tick
timestamp supplied by the environment. -/

/-- Result of `self.domain.getStats()` together with the other per-tick
statistics collected by `_collectStatistics`. -/
structure Stats where
  disktotal : Int
  diskfree : Int
  mdasize : Int
  mdafree : Int
  mdavalid : Bool
  mdathreshold : Bool
  masterValid : Bool
  masterMounted : Bool
  hasHostId : Bool
  version : Int
deriving DecidableEq, Repr

/-- The `DomainMonitorStatus` record (`__slots__` of the Python class).
The Python `isoPrefix` slot is named `isoPfx` here. -/
structure DomainMonitorStatus where
  error : Option String
  checkTime : Nat
  valid : Bool
  readDelay : Int
  diskUtilization : Option Int × Option Int
  masterMounted : Bool
  masterValid : Bool
  hasHostId : Bool
  vgMdUtilization : Int × Int
  vgMdHasEnoughFreeSpace : Bool
  vgMdFreeBelowThreashold : Bool
  isoPfx : Option String
  version : Int
deriving DecidableEq, Repr

/-- `DomainMonitorStatus.clear()`. -/
def DomainMonitorStatus.clear : DomainMonitorStatus where
  error := none
  checkTime := 0
  valid := true
  readDelay := 0
  diskUtilization := (none, none)
  masterMounted := false
  masterValid := false
  hasHostId := false
  vgMdUtilization := (0, 0)
  vgMdHasEnoughFreeSpace := true
  vgMdFreeBelowThreashold := true
  isoPfx := none
  version := -1

/-- The mutable state of one `DomainMonitorThread` that survives across loop
ticks: `self.domain` (abstracted to whether a handle was produced),
`self.isIsoDomain`, `self.isoPrefix` (named `isoPfx`), `self.firstChange` and
`self.status`.  (`self.nextStatus` is cleared at the start of every tick, so
it is threaded locally through the tick function.) -/
structure MonitorState where
  domain : Bool
  isIsoDomain : Option Bool
  isoPfx : Option String
  firstChange : Bool
  status : DomainMonitorStatus
deriving DecidableEq, Repr

/-- Thread state right after `__init__`. -/
def initState : MonitorState where
  domain := false
  isIsoDomain := none
  isoPfx := none
  firstChange := true
  status := DomainMonitorStatus.clear

/-- Environment of a single `_monitorDomain` tick: the outcome of every
external call the tick may perform.  `stopSet` tells whether
`stopEvent.is_set()` held when the loop condition was evaluated. -/
structure TickEnv where
  stopSet : Bool
  now : Nat
  produce : Except String Unit
  isISO : Except String Bool
  isoDir : Except String String
  selftest : Except String Unit
  readDelay : Except String Int
  stats : Except String Stats
  emitOk : Except String Unit
  acquire : Except String Unit
deriving Repr

/-- Observable actions of one monitor task. -/
inductive MonEv
  | emitStateChange (valid : Bool)
  | emitFailedLogged
  | acquireAttempt
  | acquireFailedLogged
  | tickDone
  | releaseAttempt
  | releaseFailedLogged
deriving DecidableEq, Repr

/-- `if self.domain is None: self._produceDomain()` — `sdCache.produce` may
fail; on failure `self.domain` stays unset and the exception propagates to the
surrounding `try`. -/
def stepProduce (domain : Bool) (r : Except String Unit) : Bool × Option String :=
  if domain then (true, none)
  else
    match r with
    | .ok _ => (true, none)
    | .error e => (false, some e)

/-- `if self.isIsoDomain is None: self._setIsoDomainInfo()` — queries
`isISO()`, and for an ISO domain also `getIsoDomainImagesDir()`;
`self.isIsoDomain` is assigned only after both calls succeed. -/
def stepIso (isIso : Option Bool) (pfx0 : Option String)
    (rISO : Except String Bool) (rDir : Except String String) :
    Option Bool × Option String × Option String :=
  match isIso with
  | some b => (some b, pfx0, none)
  | none =>
    match rISO with
    | .error e => (none, pfx0, some e)
    | .ok false => (some false, pfx0, none)
    | .ok true =>
      match rDir with
      | .error e => (none, pfx0, some e)
      | .ok d => (some true, some d, none)

/-- `_performDomainSelftest`, `_checkReadDelay` and `_collectStatistics`:
fills `nextStatus` on top of a cleared record; the first exception stops the
chain and is reported. -/
def stepRest (rSelf : Except String Unit) (rRd : Except String Int)
    (rStats : Except String Stats) (pfx : Option String) :
    DomainMonitorStatus × Option String :=
  match rSelf with
  | .error e => (DomainMonitorStatus.clear, some e)
  | .ok _ =>
    match rRd with
    | .error e => (DomainMonitorStatus.clear, some e)
    | .ok d =>
      let ns := { DomainMonitorStatus.clear with readDelay := d }
      match rStats with
      | .error e => (ns, some e)
      | .ok st =>
        ({ ns with
            diskUtilization := (some st.disktotal, some st.diskfree)
            vgMdUtilization := (st.mdasize, st.mdafree)
            vgMdHasEnoughFreeSpace := st.mdavalid
            vgMdFreeBelowThreashold := st.mdathreshold
            masterValid := st.masterValid
            masterMounted := st.masterMounted
            hasHostId := st.hasHostId
            isoPfx := pfx
            version := st.version }, none)

/-- Outcome of the `try` block of `_monitorDomain` (steps 3-7 of the spec):
the updated deferred-initialization state, the partially filled `nextStatus`
and the exception caught by the `except Exception` clause, if any. -/
structure ProbeOut where
  domain : Bool
  isIso : Option Bool
  isoPfx : Option String
  ns : DomainMonitorStatus
  err : Option String
deriving DecidableEq, Repr

/-- The `try`/`except Exception` body of `_monitorDomain`. -/
def probe (s : MonitorState) (env : TickEnv) : ProbeOut :=
  match stepProduce s.domain env.produce with
  | (dom, some e) => ⟨dom, s.isIsoDomain, s.isoPfx, DomainMonitorStatus.clear, some e⟩
  | (dom, none) =>
    match stepIso s.isIsoDomain s.isoPfx env.isISO env.isoDir with
    | (iso, pfx, some e) => ⟨dom, iso, pfx, DomainMonitorStatus.clear, some e⟩
    | (iso, pfx, none) =>
      match stepRest env.selftest env.readDelay env.stats pfx with
      | (ns, e3) => ⟨dom, iso, pfx, ns, e3⟩

/-- `_shouldAcquireHostId`: `not self.isIsoDomain and self.nextStatus.valid
and self.nextStatus.hasHostId is False` (Python truthiness: `not None` and
`not False` are both `True`). -/
def shouldAcquireHostId (isIso : Option Bool) (ns : DomainMonitorStatus) : Bool :=
  (isIso != some true) && ns.valid && !ns.hasHostId

/-- `self.nextStatus` at the end of a tick: the probe outcome with
`checkTime` stamped, the caught error recorded and
`valid = (error is None)`. -/
def tickStatus (s : MonitorState) (env : TickEnv) : DomainMonitorStatus :=
  { (probe s env).ns with
      error := (probe s env).err
      checkTime := env.now
      valid := (probe s env).err.isNone }

/-- `_notifyStatusChanges` guarded by `_statusDidChange`
(`firstChange or status.valid != nextStatus.valid`); a subscriber exception
is logged and swallowed. -/
def emitEvs (s : MonitorState) (ns : DomainMonitorStatus) (env : TickEnv) :
    List MonEv :=
  if s.firstChange || (s.status.valid != ns.valid) then
    match env.emitOk with
    | .ok _ => [MonEv.emitStateChange ns.valid]
    | .error _ => [MonEv.emitStateChange ns.valid, MonEv.emitFailedLogged]
  else []

/-- `_acquireHostId` guarded by `_shouldAcquireHostId`; an acquisition
failure is logged and swallowed. -/
def acqEvs (isIso : Option Bool) (ns : DomainMonitorStatus) (env : TickEnv) :
    List MonEv :=
  if shouldAcquireHostId isIso ns then
    match env.acquire with
    | .ok _ => [MonEv.acquireAttempt]
    | .error _ => [MonEv.acquireAttempt, MonEv.acquireFailedLogged]
  else []

/-- One `_monitorDomain` tick: probe, stamp `checkTime`, compute `valid`,
notify the state change (subscriber exceptions swallowed), clear
`firstChange`, possibly request host-id acquisition (failures swallowed),
finally `self.status.update(self.nextStatus)`. -/
def monitorDomain (s : MonitorState) (env : TickEnv) : MonitorState × List MonEv :=
  ({ domain := (probe s env).domain, isIsoDomain := (probe s env).isIso,
     isoPfx := (probe s env).isoPfx, firstChange := false,
     status := tickStatus s env },
   emitEvs s (tickStatus s env) env ++
     acqEvs (probe s env).isIso (tickStatus s env) env ++ [MonEv.tickDone])

/-- `_monitorLoop`: run ticks while the stop event is unset.  The supplied
list is the schedule of tick environments; `stopSet` of the head models
`stopEvent.is_set()` observed at the loop condition. -/
def monitorLoop (s : MonitorState) : List TickEnv → MonitorState × List MonEv
  | [] => (s, [])
  | env :: rest =>
    if env.stopSet then (s, [])
    else
      ((monitorLoop (monitorDomain s env).1 rest).1,
       (monitorDomain s env).2 ++ (monitorLoop (monitorDomain s env).1 rest).2)

/-- `_shouldReleaseHostId`: `self.domain and not self.isIsoDomain`. -/
def shouldReleaseHostId (s : MonitorState) : Bool :=
  s.domain && (s.isIsoDomain != some true)

/-- The `finally` clause of `_run`: at most one host-id release attempt;
`_releaseHostId` swallows release failures. -/
def relEvs (s : MonitorState) (rel : Except String Unit) : List MonEv :=
  if shouldReleaseHostId s then
    match rel with
    | .ok _ => [MonEv.releaseAttempt]
    | .error _ => [MonEv.releaseAttempt, MonEv.releaseFailedLogged]
  else []

/-- `_run`: the monitor loop followed by the shutdown release. -/
def runMonitor (envs : List TickEnv) (rel : Except String Unit) :
    MonitorState × List MonEv :=
  ((monitorLoop initState envs).1,
   (monitorLoop initState envs).2 ++ relEvs (monitorLoop initState envs).1 rel)

/-! ## Network API (`lib/vdsm/network/api.py`) -/

/-- Error taxonomy of `vdsm.network.errors` as used by `api.py`. -/
inductive NErr
  | badParams
  | badAddr
  | badBridgeErr
  | badNic
  | badBonding
  | usedBridge
  | usedBond
  | usedNic
  | failedIfup
  | lostConnection
deriving DecidableEq, Repr

/-- Observable actions of the network API functions. -/
inductive NetEv
  | setRunningConfig (net : String)
  | removeRunningConfig (net : String)
  | disconnectBridgePort (port : String)
  | removeLibvirtNetwork (net : String)
  | removeDevice (name : String)
  | removeQoS
  | configureDevice (name : String)
  | configureLibvirtNetwork (net : String)
  | configureQoS
deriving DecidableEq, Repr

/-- The layered device chain built by `_objectivizeNetwork`
(`vdsm.network.models` entities: Nic, Bond, Vlan, Bridge). -/
inductive NetDev
  | nicDev (name : String)
  | bondDev (name : String)
  | vlanDev (lower : Option NetDev) (name : String)
  | bridgeDev (name : String) (port : Option NetDev)

/-- The `name` attribute of a device entity. -/
def devName : NetDev → String
  | .nicDev n => n
  | .bondDev n => n
  | .vlanDev _ n => n
  | .bridgeDev n _ => n

/-- The `port` attribute of a Bridge entity (`None` on other devices). -/
def bridgePort : NetDev → Option NetDev
  | .bridgeDev _ port => port
  | _ => none

/-- Modelled from the spec: `hierarchy_backing_device` from
`vdsm.network.models` is imported by `api.py` but `models.py` is not among
the sources.  Per the spec (§4.4(a): "if a backing device still exists,
remove its QoS last"), it walks the hierarchy down to the backing (bottom)
device of the chain — the bond or nic beneath any vlan/bridge layers. -/
def hierarchy_backing_device : NetDev → Option NetDev
  | .nicDev n => some (.nicDev n)
  | .bondDev n => some (.bondDev n)
  | .vlanDev (some d) _ => hierarchy_backing_device d
  | .vlanDev none _ => none
  | .bridgeDev _ (some d) => hierarchy_backing_device d
  | .bridgeDev _ none => none

/-- `_objectivizeNetwork`, restricted to the parameters the embedded call
sites pass (no IP handling is observable here).  `nicEnslaved` is
`_netinfo.getBondingForNic(nic)`; a vlan built from a bare tag gets the
auto-derived name `lower.tag`. -/
def objectivizeNetwork (bridge vlan : Option String) (vlanId : Option Nat)
    (bonding nic nicEnslaved : Option String) : Except NErr NetDev := do
  let top0 : Option NetDev ←
    match bonding with
    | some b => pure (some (NetDev.bondDev b))
    | none =>
      match nic with
      | some n =>
        if nicEnslaved.isSome then throw NErr.usedNic
        else pure (some (NetDev.nicDev n))
      | none => pure (none : Option NetDev)
  let top1 : Option NetDev :=
    match vlan with
    | some v => some (NetDev.vlanDev top0 v)
    | none =>
      match vlanId with
      | some tag =>
        some (NetDev.vlanDev top0
          ((match top0 with
            | some d => devName d
            | none => "") ++ "." ++ toString tag))
      | none => top0
  let top2 : Option NetDev :=
    match bridge with
    | some br => some (NetDev.bridgeDev br top1)
    | none => top1
  match top2 with
  | some t => pure t
  | none => throw NErr.badParams

/-- Inputs of one `_delNetwork` call: the persistence mode, the request
flags, and everything `_delNetwork` reads from the `_netinfo` snapshot and
from sysfs. -/
structure DelInput where
  unified : Bool
  network : String
  keepBridge : Bool
  bypassValidation : Bool
  nics : List String
  vlan : Option String
  vlanId : Option Nat
  bonding : Option String
  bridged : Bool
  dhcpv4 : Bool
  bondSlaves : List String
  bridgePorts : List String
  nicEnslaved : Option String
  backingExists : Bool
deriving DecidableEq, Repr

/-- Order-insensitive equality of the two string collections
(`set(nics) != set(...)` in Python). -/
def setEqStr (a b : List String) : Bool :=
  a.all (fun x => b.contains x) && b.all (fun x => a.contains x)

/-- `_validateDelNetwork` (with `_assertBridgeClean` inlined):
`bridge_should_be_clean` is `bridged and not keep_bridge`; the iface set is
the nics plus the vlan name, or the bonding when there is no vlan. -/
def validateDelNetwork (i : DelInput) : Option NErr :=
  if i.bonding.isSome && !setEqStr i.nics i.bondSlaves then some NErr.badNic
  else if i.bridged && !i.keepBridge then
    let ifaces := i.nics ++
      (match i.vlan with
       | some v => [v]
       | none => i.bonding.toList)
    if (i.bridgePorts.filter (fun p => !ifaces.contains p)).isEmpty then none
    else some NErr.usedBridge
  else none

/-- The `_alterRunningConfig` wrapper action of `_delNetwork`: in unified
persistence mode, remove the network from the running config first. -/
def delT0 (i : DelInput) : List NetEv :=
  if i.unified then [NetEv.removeRunningConfig i.network] else []

/-- `net_ent_to_remove`: the bridge port (and everything below) when
`bridged and keep_bridge`, else the whole chain. -/
def delEntToRemove (i : DelInput) (netEnt : NetDev) : Option NetDev :=
  if i.bridged && i.keepBridge then bridgePort netEnt else some netEnt

/-- The `_disconnect_bridge_port` action of the keep-bridge branch. -/
def delDisc (i : DelInput) (netEnt : NetDev) : List NetEv :=
  if i.bridged && i.keepBridge then
    match bridgePort netEnt with
    | some p => [NetEv.disconnectBridgePort (devName p)]
    | none => []
  else []

/-- The `net_ent_to_remove.remove()` action (absent when there is nothing to
remove). -/
def delDevEvs (i : DelInput) (netEnt : NetDev) : List NetEv :=
  match delEntToRemove i netEnt with
  | some d => [NetEv.removeDevice (devName d)]
  | none => []

/-- The final `removeQoS` action, performed when the chain has a backing
device whose sysfs path still exists. -/
def delQosEvs (i : DelInput) (netEnt : NetDev) : List NetEv :=
  match hierarchy_backing_device netEnt with
  | some _ => if i.backingExists then [NetEv.removeQoS] else []
  | none => []

/-- `_delNetwork` with its `_alterRunningConfig` wrapper, as an event trace
plus outcome.  The caller-supplied `vlan` and `bonding` keyword arguments
(`vlanArg`, `bondingArg`) are rebound from the snapshot
(`nics, vlan, vlan_id, bonding = _netinfo.getNicsVlanAndBondingForNetwork(network)`)
before any use, exactly as in the source. -/
def delNetwork (vlanArg bondingArg : Option String) (i : DelInput) :
    List NetEv × Option NErr :=
  let vlan := i.vlan
  let bonding := i.bonding
  match (if i.bypassValidation then none else validateDelNetwork i) with
  | some e => (delT0 i, some e)
  | none =>
    let nic := if !i.nics.isEmpty && bonding.isNone then i.nics.head? else none
    match objectivizeNetwork (if i.bridged then some i.network else none)
        vlan i.vlanId bonding nic i.nicEnslaved with
    | .error e => (delT0 i, some e)
    | .ok netEnt =>
      (delT0 i ++ delDisc i netEnt ++ [NetEv.removeLibvirtNetwork i.network] ++
        delDevEvs i netEnt ++ delQosEvs i netEnt, none)

/-- Python truthiness of an optional string keyword argument. -/
def truthyStr : Option String → Bool
  | none => false
  | some s => !(s == "")

/-- Value of a decimal digit character. -/
def digitVal (c : Char) : Option Nat :=
  if '0' ≤ c ∧ c ≤ '9' then some (c.toNat - '0'.toNat) else none

/-- Accumulating decimal parser. -/
def parseDigitsAux : List Char → Nat → Option Nat
  | [], acc => some acc
  | c :: cs, acc =>
    match digitVal c with
    | some d => parseDigitsAux cs (acc * 10 + d)
    | none => none

/-- Parse a non-empty all-digit character list. -/
def parseDigits : List Char → Option Nat
  | [] => none
  | cs => parseDigitsAux cs 0

/-- Python's `int()` on a decimal string (sign and digits; anything else
raises `ValueError`, modelled as `none`). -/
def parseDecInt (s : String) : Option Int :=
  match s.data with
  | '-' :: rest => (parseDigits rest).map (fun n => -(n : Int))
  | ds => (parseDigits ds).map (fun n => (n : Int))

/-- Modelled from the spec: `vdsm.netinfo.addresses.prefix2netmask` is
imported by `api.py` but `addresses.py` is not among the sources.  Per the
spec ("convert prefix→netmask if only prefix given, fail `BAD_ADDR` on bad
value"), it turns a prefix length in [0, 32] into a dotted-quad netmask and
raises `ValueError` for any other value. -/
def prefix2netmask (p : Int) : Option String :=
  if 0 ≤ p ∧ p ≤ 32 then
    let pn := p.toNat
    let m := 4294967295 - (2 ^ (32 - pn) - 1)
    some (toString (m / 16777216 % 256) ++ "." ++ toString (m / 65536 % 256) ++
      "." ++ toString (m / 256 % 256) ++ "." ++ toString (m % 256))
  else none

/-- Inputs of one `_addNetwork` call (only the parts with observable
behaviour in this embedding; `pfx` is the `prefix` keyword argument and
`vlanConflict` is the outcome of `_validateInterNetworkCompatibility` for
the chosen lower iface). -/
structure AddInput where
  unified : Bool
  network : String
  pfx : Option String
  netmask : Option String
  existingNetworks : List String
  existingBridges : List String
  bonding : Option String
  nic : Option String
  nicEnslaved : Option String
  vlanId : Option Nat
  bridged : Bool
  vlanConflict : Bool
  hostQos : Bool
deriving DecidableEq, Repr

/-- Result of `_addNetwork`: the event trace, the raised error (if any) and
the netmask effectively used for the IPv4 configuration. -/
structure AddResult where
  trace : List NetEv
  err : Option NErr
  effNetmask : Option String
deriving DecidableEq, Repr

/-- Continuation of `_addNetwork` after the name/prefix handling:
duplicate-network check, inter-network compatibility, objectivization,
device configuration (one level below for a pre-existing bridge), libvirt
registration and QoS. -/
def addNetworkRest (i : AddInput) (t0 : List NetEv) (nm : Option String) :
    AddResult :=
  if i.existingNetworks.contains i.network then ⟨t0, some NErr.usedBridge, nm⟩
  else if (truthyStr i.bonding || truthyStr i.nic) && i.vlanConflict then
    ⟨t0, some NErr.badParams, nm⟩
  else
    match objectivizeNetwork (if i.bridged then some i.network else none)
        none i.vlanId i.bonding i.nic i.nicEnslaved with
    | .error e => ⟨t0, some e, nm⟩
    | .ok netEnt =>
      let cfgDev :=
        if i.bridged && i.existingBridges.contains i.network then
          match bridgePort netEnt with
          | some p => [NetEv.configureDevice (devName p)]
          | none => []
        else [NetEv.configureDevice (devName netEnt)]
      let qos := if i.hostQos then [NetEv.configureQoS] else []
      ⟨t0 ++ cfgDev ++ [NetEv.configureLibvirtNetwork i.network] ++ qos,
       none, nm⟩

/-- `_addNetwork` with its `_alterRunningConfig` wrapper.  In unified
persistence mode the wrapper records the network in the running config
before the wrapped function runs; then come the empty-name check, the
`prefix`/`netmask` mutual exclusion and the prefix conversion. -/
def addNetwork (i : AddInput) : AddResult :=
  let t0 := if i.unified then [NetEv.setRunningConfig i.network] else []
  if i.network == "" then ⟨t0, some NErr.badBridgeErr, i.netmask⟩
  else if truthyStr i.pfx then
    if truthyStr i.netmask then ⟨t0, some NErr.badParams, i.netmask⟩
    else
      match parseDecInt (i.pfx.getD "") with
      | none => ⟨t0, some NErr.badAddr, i.netmask⟩
      | some p =>
        match prefix2netmask p with
        | none => ⟨t0, some NErr.badAddr, i.netmask⟩
        | some m => addNetworkRest i t0 (some m)
  else addNetworkRest i t0 i.netmask

/-! ### SR-IOV VF controller (`change_numvfs` and helpers) -/

/-- Observable actions of the VF-count path. -/
inductive VfEv
  | sysfsWrite (pciPath : String) (content : String)
  | udevSettleWait
  | persistVf (fileName : String) (content : String)
  | linkUp (dev : String)
deriving DecidableEq, Repr

/-- `_update_numvfs`: open `/sys/bus/pci/devices/<pci_path>/sriov_numvfs`
unbuffered, write `"0"`, write `str(numvfs)`, then `_wait_for_udev_events`. -/
def update_numvfs (pciPath : String) (numvfs : Nat) : List VfEv :=
  [VfEv.sysfsWrite pciPath "0", VfEv.sysfsWrite pciPath (toString numvfs),
   VfEv.udevSettleWait]

/-- `_persist_numvfs`: write `str(numvfs)` to
`<CONF_RUN_DIR>/virtual_functions/<device_name>`. -/
def persist_numvfs (deviceName : String) (numvfs : Nat) : List VfEv :=
  [VfEv.persistVf deviceName (toString numvfs)]

/-- `change_numvfs(pci_path, numvfs, net_name)`: update the sysfs count,
persist it — note the source passes `pci_path`, not `net_name`, to
`_persist_numvfs` — and bring `net_name` up. -/
def change_numvfs (pciPath : String) (numvfs : Nat) (netName : String) :
    List VfEv :=
  update_numvfs pciPath numvfs ++ persist_numvfs pciPath numvfs ++
    [VfEv.linkUp netName]

/-! ### Bonding classification and setup validation -/

/-- Request attributes of one bonding.  `remove = none` models the `remove`
key being absent; `remove = some b` models the key being present with a
value of truthiness `b`. -/
structure BondAttrs where
  remove : Option Bool
  nics : Option (List String)
  options : Option String
deriving DecidableEq, Repr

/-- `_bonds_classification`: a bonding goes to the removal set iff the
`remove` KEY is present (`'remove' in attrs`), regardless of its value;
otherwise to edit when the bond exists in the snapshot, else to add. -/
def bonds_classification :
    List (String × BondAttrs) → List String →
    List String × List (String × BondAttrs) × List (String × BondAttrs)
  | [], _ => ([], [], [])
  | (name, attrs) :: rest, ninfoBondings =>
    let (rem, ed, ad) := bonds_classification rest ninfoBondings
    if attrs.remove.isSome then (name :: rem, ed, ad)
    else if ninfoBondings.contains name then (rem, (name, attrs) :: ed, ad)
    else (rem, ed, (name, attrs) :: ad)

/-- The bonding part of `_validateNetworkSetup` for a single bonding entry.
`nameOk` and `optionsOk` stand for `Bond.validateName` / `Bond.validateOptions`
(from `vdsm.network.models`, not among the sources; they only raise or pass).
The nics requirement is skipped iff `bondingAttrs.get('remove', False)` is
truthy. -/
def validateBonding (nameOk optionsOk : Bool) (currentNics : List String)
    (attrs : BondAttrs) : Option NErr :=
  if !nameOk then some NErr.badBonding
  else if attrs.options.isSome && !optionsOk then some NErr.badBonding
  else if attrs.remove.getD false then none
  else
    match attrs.nics with
    | none => some NErr.badParams
    | some [] => some NErr.badParams
    | some ns =>
      if ns.all (fun n => currentNics.contains n) then none
      else some NErr.badNic

/-! ### Domain monitor pool stop protocol (`DomainMonitor._stopMonitors`) -/

/-- Observable actions of the pool stop path. -/
inductive PoolEv
  | stopSignal (sd : String)
  | joined (sd : String)
  | removedEntry (sd : String)
  | removeMissingLogged (sd : String)
deriving DecidableEq, Repr

/-- The second phase of `_stopMonitors`: join each monitor, then delete its
entry from `self._domains`; a `KeyError` (entry already gone) is logged and
the iteration continues. -/
def joinPhase : List String → List String → List String × List PoolEv
  | doms, [] => (doms, [])
  | doms, m :: rest =>
    let ev := if doms.contains m then PoolEv.removedEntry m
              else PoolEv.removeMissingLogged m
    let (doms', evs) := joinPhase (doms.erase m) rest
    (doms', PoolEv.joined m :: ev :: evs)

/-- `_stopMonitors`: first signal stop on every targeted monitor, then join
them one by one, removing each entry from the pool map after its join. -/
def stopMonitors (doms monitors : List String) : List String × List PoolEv :=
  let (doms', evs) := joinPhase doms monitors
  (doms', monitors.map PoolEv.stopSignal ++ evs)

/-- `stopMonitoring(sdUUIDs)`: targets the monitors of the pool map whose
sdUUID is in the given collection. -/
def stopMonitoring (doms sdUUIDs : List String) : List String × List PoolEv :=
  stopMonitors doms (doms.filter (fun m => sdUUIDs.contains m))

/-- `close()`: targets every monitor of the pool map. -/
def closePool (doms : List String) : List String × List PoolEv :=
  stopMonitors doms doms

/-! ### Bond option name-to-numeric probe
(`lib/vdsm/network/link/bond/sysfs_options_mapper.py`) -/

/-- IOError classification for a sysfs option write. -/
inductive IOErrno
  | einval
  | eperm
  | eacces
  | other (code : Nat)
deriving DecidableEq, Repr

/-- Exceptions that can escape `_bond_opts_name2numeric_scan`: a re-raised
`IOError` (annotated with the option value that was being written), or the
`ValueError` of unpacking a non-pair read into `(name, numeric)`. -/
inductive ScanErr
  | ioError (code : Nat) (numericVal : Nat)
  | valueError
deriving DecidableEq, Repr

/-- Observable actions of the per-option scan: the attempted write of a
numeric value, and the recording of a resulting `(name, numeric)` pair. -/
inductive ScanEv
  | wrote (v : Nat)
  | recorded (name : String) (numeric : String)
deriving DecidableEq, Repr

/-- Python-dict insertion (`vals[name] = numeric`): replace the value of an
existing key, else append. -/
def dictInsert (k v : String) : List (String × String) → List (String × String)
  | [] => [(k, v)]
  | (k', v') :: rest =>
    if k = k' then (k, v) :: rest else (k', v') :: dictInsert k v rest

/-- Whether an errno ends the scan for the option
(`EINVAL`, `EPERM`, `EACCES`). -/
def isStopErrno : IOErrno → Bool
  | .einval => true
  | .eperm => true
  | .eacces => true
  | .other _ => false

/-- The loop of `_bond_opts_name2numeric_scan`, with
`_bond_opts_name2numeric_getval` inlined: write each value in turn (the
environment returns the post-write file elements, or the errno of the
failed write); `EINVAL|EPERM|EACCES` break the loop, other IOErrors are
re-raised, and the read elements are unpacked into `(name, numeric)` (a
non-pair raises `ValueError`); successful pairs accumulate in the `vals`
dict.  `fuel` counts the values left in `range(32)` and `v` is the next
value to write, so the loop is entered with `fuel = 32`, `v = 0`. -/
def scanGo (env : Nat → Except IOErrno (List String)) :
    Nat → Nat → List (String × String) →
    List ScanEv × Except ScanErr (List (String × String))
  | 0, _, vals => ([], .ok vals)
  | fuel + 1, v, vals =>
    match env v with
    | .error e =>
      if isStopErrno e then ([ScanEv.wrote v], .ok vals)
      else
        match e with
        | .other c => ([ScanEv.wrote v], .error (ScanErr.ioError c v))
        | _ => ([ScanEv.wrote v], .ok vals)
    | .ok [name, numeric] =>
      (ScanEv.wrote v :: ScanEv.recorded name numeric ::
        (scanGo env fuel (v + 1) (dictInsert name numeric vals)).1,
       (scanGo env fuel (v + 1) (dictInsert name numeric vals)).2)
    | .ok _ => ([ScanEv.wrote v], .error ScanErr.valueError)

/-- `_bond_opts_name2numeric_scan(opt_path)`: `for numeric_val in
range(32)` starting with an empty dict. -/
def name2numeric_scan (env : Nat → Except IOErrno (List String)) :
    List ScanEv × Except ScanErr (List (String × String)) :=
  scanGo env 32 0 []

/-- `_bond_opts_name2numeric(bond)`: iterate the option files (everything
globbed under `bonding/*` except the `mode` file, given here as the list of
`(path, current content elements)`), and scan exactly those whose current
content has exactly two whitespace-separated elements.  A scan exception
propagates. -/
def bond_opts_name2numeric (modePath : String)
    (files : List (String × List String))
    (env : String → Nat → Except IOErrno (List String)) :
    Except ScanErr (List (String × List (String × String))) :=
  match files with
  | [] => .ok []
  | (p, elements) :: rest =>
    if p = modePath then bond_opts_name2numeric modePath rest env
    else if elements.length = 2 then
      match (name2numeric_scan (env p)).2 with
      | .error e => .error e
      | .ok vals =>
        match bond_opts_name2numeric modePath rest env with
        | .error e => .error e
        | .ok acc => .ok ((p, vals) :: acc)
    else bond_opts_name2numeric modePath rest env

/-- The numeric values attempted (written) during a scan, in order. -/
def writesOf (tr : List ScanEv) : List Nat :=
  tr.filterMap fun e =>
    match e with
    | .wrote v => some v
    | .recorded _ _ => none

/-- Consecutive naturals `v, v+1, ..., v+k-1`. -/
def seqFrom : Nat → Nat → List Nat
  | _, 0 => []
  | v, k + 1 => v :: seqFrom (v + 1) k

/-- A tick environment on which every probe step succeeds and the domain
reports no held host-id. -/
def tickOkEnv : TickEnv where
  stopSet := false
  now := 7
  produce := .ok ()
  isISO := .ok false
  isoDir := .ok "/iso"
  selftest := .ok ()
  readDelay := .ok 0
  stats := .ok ⟨100, 50, 10, 5, true, true, true, true, false, 3⟩
  emitOk := .ok ()
  acquire := .ok ()

/-- A tick environment whose domain production fails. -/
def tickFailEnv : TickEnv :=
  { tickOkEnv with produce := .error "produce-failed" }

/-- A concrete `_addNetwork` request in unified persistence mode carrying
both `prefix` and `netmask`. -/
def c7Both : AddInput where
  unified := true
  network := "net0"
  pfx := some "24"
  netmask := some "255.255.255.0"
  existingNetworks := []
  existingBridges := []
  bonding := none
  nic := some "eth0"
  nicEnslaved := none
  vlanId := none
  bridged := true
  vlanConflict := false
  hostQos := false

/-- A concrete per-option sysfs behaviour: values 0..2 are accepted (the
option file then reads `opt <v>`), any later value fails with `EINVAL`. -/
def c8Env : String → Nat → Except IOErrno (List String) := fun _ v =>
  if v < 3 then Except.ok ["opt", toString v] else Except.error IOErrno.einval

/-! ## Theorems -/

/-- C3 counterexample: per scenario S5 the claim expects
`<run-conf>/virtual_functions/eth0` to hold `"4"` after
`change_numvfs("0000:00:19.0", 4, "eth0")`, but `change_numvfs` passes
`pci_path` — not `net_name` — to `_persist_numvfs`, so the persisted file is
named `0000:00:19.0`. -/
theorem C3_persist_filename_counterexample :
    (VfEv.persistVf "eth0" "4") ∉ change_numvfs "0000:00:19.0" 4 "eth0" ∧
    (VfEv.persistVf "0000:00:19.0" "4") ∈ change_numvfs "0000:00:19.0" 4 "eth0" := by
  decide

/-- C3 (amended): `change_numvfs(pci_path, numvfs, net_name)` writes `"0"`
to the sysfs `sriov_numvfs` file before writing the new count, waits for
udev, then persists the count as a decimal string into a file under
`<run-conf>/virtual_functions/` named after the PCI device path (not after
the net device), and finally brings the `net_name` link up. -/
theorem C3_change_numvfs_amended (pciPath : String) (numvfs : Nat) (netName : String) :
    change_numvfs pciPath numvfs netName =
      [VfEv.sysfsWrite pciPath "0", VfEv.sysfsWrite pciPath (toString numvfs),
       VfEv.udevSettleWait, VfEv.persistVf pciPath (toString numvfs),
       VfEv.linkUp netName] := by
  rfl

/-- C10: the behaviour of `_delNetwork` is independent of the
caller-supplied `vlan` and `bonding` arguments — both are unconditionally
rebound from the netinfo snapshot before any use, so any two values yield
identical outcomes on the same remaining inputs. -/
theorem C10_delNetwork_noninterference (va ba va' ba' : Option String) (i : DelInput) :
    delNetwork va ba i = delNetwork va' ba' i := by
  rfl

/-- Any bonding entry whose attrs carry the `remove` key lands in the
removal set of `_bonds_classification`. -/
lemma classification_remove_mem (bonds : List (String × BondAttrs))
    (ninfo : List String) (name : String) (attrs : BondAttrs)
    (hmem : (name, attrs) ∈ bonds) (hrem : attrs.remove.isSome) :
    name ∈ (bonds_classification bonds ninfo).1 := by
  induction bonds with
  | nil => simp at hmem
  | cons hd rest ih =>
    obtain ⟨n, a⟩ := hd
    rcases List.mem_cons.1 hmem with heq | htail
    · injection heq with hn ha
      subst hn; subst ha
      simp only [bonds_classification]
      simp [hrem]
    · have hin := ih htail
      simp only [bonds_classification]
      split
      · exact List.mem_cons_of_mem _ hin
      · split <;> exact hin

/-- C9: a bonding whose request attrs contain the `remove` key with a falsy
value (`remove=False`) is assigned to the removal set by
`_bonds_classification` (which tests key presence), yet
`_validateNetworkSetup` validates it exactly as a non-removal (the skip
tests truthiness of `attrs.get('remove', False)`): in particular such a
bonding without nics fails the nics-required validation although it would be
processed as a removal, while the same attrs with `remove=True` skip it. -/
theorem C9_remove_key_classification (bonds : List (String × BondAttrs))
    (ninfo currentNics : List String) (name : String) (attrs : BondAttrs)
    (nameOk optionsOk : Bool)
    (hmem : (name, attrs) ∈ bonds) (hfalse : attrs.remove = some false) :
    name ∈ (bonds_classification bonds ninfo).1 ∧
    validateBonding nameOk optionsOk currentNics attrs =
      validateBonding nameOk optionsOk currentNics { attrs with remove := none } ∧
    validateBonding true true currentNics ⟨some true, none, none⟩ = none ∧
    validateBonding true true currentNics ⟨some false, none, none⟩ =
      some NErr.badParams := by
  refine ⟨classification_remove_mem bonds ninfo name attrs hmem (by simp [hfalse]),
    ?_, rfl, rfl⟩
  simp [validateBonding, hfalse]

/-- C9 witness: a concrete bonding `bond0` with `remove=False` and no nics
is classified as a removal and simultaneously rejected by the non-removal
validation. -/
theorem C9_remove_key_classification_witness :
    "bond0" ∈ (bonds_classification [("bond0", ⟨some false, none, none⟩)] []).1 ∧
    validateBonding true true [] ⟨some false, none, none⟩ =
      validateBonding true true [] ⟨none, none, none⟩ := by
  have h := C9_remove_key_classification [("bond0", ⟨some false, none, none⟩)]
    [] [] "bond0" ⟨some false, none, none⟩ true true (by simp) rfl
  exact ⟨h.1, h.2.1⟩

/-- Shape of the wrapper trace of `_delNetwork`. -/
lemma delT0_shape (i : DelInput) :
    delT0 i = [] ∨ delT0 i = [NetEv.removeRunningConfig i.network] := by
  unfold delT0; split <;> simp

/-- Shape of the disconnect trace of `_delNetwork`. -/
lemma delDisc_shape (i : DelInput) (netEnt : NetDev) :
    delDisc i netEnt = [] ∨
    ∃ p, delDisc i netEnt = [NetEv.disconnectBridgePort p] := by
  unfold delDisc
  split
  · split
    · exact Or.inr ⟨_, rfl⟩
    · exact Or.inl rfl
  · exact Or.inl rfl

/-- Shape of the device-removal trace of `_delNetwork`. -/
lemma delDevEvs_shape (i : DelInput) (netEnt : NetDev) :
    delDevEvs i netEnt = [] ∨
    ∃ n, delDevEvs i netEnt = [NetEv.removeDevice n] := by
  unfold delDevEvs
  split
  · exact Or.inr ⟨_, rfl⟩
  · exact Or.inl rfl

/-- Shape of the QoS-removal trace of `_delNetwork`. -/
lemma delQosEvs_shape (i : DelInput) (netEnt : NetDev) :
    delQosEvs i netEnt = [] ∨ delQosEvs i netEnt = [NetEv.removeQoS] := by
  unfold delQosEvs
  split
  · split <;> simp
  · exact Or.inl rfl

/-- A device-removal event in the success trace of `_delNetwork` can only
come from the `net_ent_to_remove.remove()` step. -/
lemma mem_removeDevice_iff (i : DelInput) (netEnt : NetDev) (d : String) :
    NetEv.removeDevice d ∈
      (delT0 i ++ delDisc i netEnt ++ [NetEv.removeLibvirtNetwork i.network] ++
        delDevEvs i netEnt ++ delQosEvs i netEnt) ↔
    NetEv.removeDevice d ∈ delDevEvs i netEnt := by
  rcases delT0_shape i with h0 | h0 <;>
    rcases delDisc_shape i netEnt with h1 | ⟨p, h1⟩ <;>
    rcases delQosEvs_shape i netEnt with h3 | h3 <;>
    rw [h0, h1, h3] <;> simp

/-- C1: on every `_delNetwork` call that removes a device entity, the
libvirt network entry is removed immediately before the device removal (in
particular, before it), and the QoS removal on the still-existing backing
device — when it happens — comes after the device removal, as the very last
action of the call. -/
theorem C1_delNetwork_ordering (va ba : Option String) (i : DelInput) (d : String)
    (h : NetEv.removeDevice d ∈ (delNetwork va ba i).1) :
    ∃ pre qos, (delNetwork va ba i).1 =
        pre ++ NetEv.removeLibvirtNetwork i.network ::
          NetEv.removeDevice d :: qos ∧
      (∀ n, NetEv.removeDevice n ∉ pre) ∧ NetEv.removeQoS ∉ pre ∧
      (qos = [] ∨ qos = [NetEv.removeQoS]) := by
  unfold delNetwork at h ⊢
  cases hval : (if i.bypassValidation then none else validateDelNetwork i) with
  | some e =>
    simp only [hval] at h
    rcases delT0_shape i with h0 | h0 <;> rw [h0] at h <;> simp at h
  | none =>
    simp only [hval] at h ⊢
    cases hobj : objectivizeNetwork (if i.bridged then some i.network else none)
        i.vlan i.vlanId i.bonding
        (if !i.nics.isEmpty && i.bonding.isNone then i.nics.head? else none)
        i.nicEnslaved with
    | error e =>
      simp only [hobj] at h
      rcases delT0_shape i with h0 | h0 <;> rw [h0] at h <;> simp at h
    | ok netEnt =>
      simp only [hobj] at h ⊢
      have hdev := (mem_removeDevice_iff i netEnt d).1 h
      rcases delDevEvs_shape i netEnt with h2 | ⟨n, h2⟩
      · rw [h2] at hdev; simp at hdev
      · rw [h2] at hdev
        simp at hdev
        subst hdev
        refine ⟨delT0 i ++ delDisc i netEnt, delQosEvs i netEnt, ?_, ?_, ?_,
          delQosEvs_shape i netEnt⟩
        · rw [h2]; simp
        · intro m hm
          rcases delT0_shape i with h0 | h0 <;>
            rcases delDisc_shape i netEnt with h1 | ⟨p, h1⟩ <;>
            rw [h0, h1] at hm <;> simp at hm
        · intro hm
          rcases delT0_shape i with h0 | h0 <;>
            rcases delDisc_shape i netEnt with h1 | ⟨p, h1⟩ <;>
            rw [h0, h1] at hm <;> simp at hm

/-- C1 witness: a concrete bridged network with a nic beneath and an
existing backing device: the libvirt removal immediately precedes the device
removal and the QoS removal is last. -/
theorem C1_delNetwork_ordering_witness :
    ∃ pre qos,
      (delNetwork none none
        { unified := true, network := "ovirtmgmt", keepBridge := false,
          bypassValidation := false, nics := ["eth0"], vlan := none,
          vlanId := none, bonding := none, bridged := true, dhcpv4 := false,
          bondSlaves := [], bridgePorts := ["eth0"], nicEnslaved := none,
          backingExists := true }).1 =
        pre ++ NetEv.removeLibvirtNetwork "ovirtmgmt" ::
          NetEv.removeDevice "ovirtmgmt" :: qos ∧
      (∀ n, NetEv.removeDevice n ∉ pre) ∧ NetEv.removeQoS ∉ pre ∧
      (qos = [] ∨ qos = [NetEv.removeQoS]) :=
  C1_delNetwork_ordering none none _ "ovirtmgmt" (by decide)

/-- `_addNetwork` threads the effective netmask unchanged through the
post-validation phase. -/
lemma addNetworkRest_effNetmask (i : AddInput) (t0 : List NetEv)
    (nm : Option String) : (addNetworkRest i t0 nm).effNetmask = nm := by
  unfold addNetworkRest
  split
  · rfl
  · split
    · rfl
    · split <;> rfl

/-- C7 counterexample: with unified persistence, an `_addNetwork` call that
fails with `BAD_PARAMS` because both `prefix` and `netmask` were supplied
has nevertheless already mutated state: the `_alterRunningConfig` wrapper
recorded the network in the running config before the validation ran, so
the failure does not happen "with no mutation having been performed". -/
theorem C7_no_mutation_counterexample :
    (addNetwork c7Both).err = some NErr.badParams ∧
    (addNetwork c7Both).trace = [NetEv.setRunningConfig "net0"] ∧
    (addNetwork c7Both).trace ≠ [] := by
  decide

/-- C7 (amended): `_addNetwork` rejects an empty network name; for a
non-empty name it fails with `BAD_PARAMS` when both `prefix` and `netmask`
are supplied — with no device configuration performed, although in unified
persistence mode the running-config entry has already been recorded by the
`_alterRunningConfig` wrapper before the validation; when only `prefix` is
given it converts the prefix to the netmask actually used, and fails with
`BAD_ADDR` when the prefix value is invalid (unparsable or outside
[0, 32]). -/
theorem C7_addNetwork_validation (i : AddInput) :
    (i.network = "" → (addNetwork i).err = some NErr.badBridgeErr) ∧
    (i.network ≠ "" → truthyStr i.pfx = true → truthyStr i.netmask = true →
      (addNetwork i).err = some NErr.badParams ∧
      (addNetwork i).trace =
        (if i.unified then [NetEv.setRunningConfig i.network] else [])) ∧
    (i.network ≠ "" → truthyStr i.pfx = true → truthyStr i.netmask = false →
      (∀ p m, parseDecInt (i.pfx.getD "") = some p → prefix2netmask p = some m →
        (addNetwork i).effNetmask = some m) ∧
      (parseDecInt (i.pfx.getD "") = none → (addNetwork i).err = some NErr.badAddr) ∧
      (∀ p, parseDecInt (i.pfx.getD "") = some p → prefix2netmask p = none →
        (addNetwork i).err = some NErr.badAddr)) := by
  refine ⟨?_, ?_, ?_⟩
  · intro h
    simp [addNetwork, h]
  · intro hne hp hn
    simp [addNetwork, hne, hp, hn]
  · intro hne hp hn
    refine ⟨?_, ?_, ?_⟩
    · intro p m hint hpm
      simp [addNetwork, hne, hp, hn, hint, hpm, addNetworkRest_effNetmask]
    · intro hint
      simp [addNetwork, hne, hp, hn, hint]
    · intro p hint hpm
      simp [addNetwork, hne, hp, hn, hint, hpm]

/-- C7 witness: concrete instances of the amended claim — an empty name is
rejected, a lone `prefix` of `"24"` yields netmask `255.255.255.0`, and a
lone `prefix` of `"33"` fails with `BAD_ADDR`. -/
theorem C7_addNetwork_validation_witness :
    (addNetwork { c7Both with network := "" }).err = some NErr.badBridgeErr ∧
    (addNetwork { c7Both with netmask := none }).effNetmask =
      some "255.255.255.0" ∧
    (addNetwork { c7Both with netmask := none, pfx := some "33" }).err =
      some NErr.badAddr := by
  refine ⟨(C7_addNetwork_validation _).1 rfl, ?_, ?_⟩
  · exact ((C7_addNetwork_validation { c7Both with netmask := none }).2.2
      (by decide) (by decide) (by decide)).1 24 "255.255.255.0" (by decide)
      (by decide)
  · exact ((C7_addNetwork_validation
      { c7Both with netmask := none, pfx := some "33" }).2.2
      (by decide) (by decide) (by decide)).2.2 33 (by decide) (by decide)

/-- The join/remove phase never emits a stop signal. -/
lemma joinPhase_no_stop (doms ms : List String) :
    ∀ e ∈ (joinPhase doms ms).2, ∀ sd, e ≠ PoolEv.stopSignal sd := by
  induction ms generalizing doms with
  | nil => simp [joinPhase]
  | cons m rest ih =>
    intro e he sd
    simp only [joinPhase] at he
    rcases List.mem_cons.1 he with rfl | he'
    · simp
    · rcases List.mem_cons.1 he' with rfl | he'' <;> try exact ih _ e he'' sd
      split <;> simp

/-- In the join/remove phase, the event right after `joined sd` is the
map-entry removal for `sd` (successful or logged as missing). -/
lemma joinPhase_join_next (doms ms : List String) :
    ∀ j sd, (joinPhase doms ms).2.get? j = some (PoolEv.joined sd) →
      (joinPhase doms ms).2.get? (j + 1) = some (PoolEv.removedEntry sd) ∨
      (joinPhase doms ms).2.get? (j + 1) = some (PoolEv.removeMissingLogged sd) := by
  induction ms generalizing doms with
  | nil => intro j sd h; simp [joinPhase] at h
  | cons m rest ih =>
    intro j sd h
    match j with
    | 0 =>
      simp only [joinPhase, List.get?] at h ⊢
      injection h with h'
      injection h' with hm
      subst hm
      split <;> simp
    | 1 =>
      simp only [joinPhase, List.get?] at h
      split at h <;> exact absurd h (by simp)
    | j + 2 =>
      simp only [joinPhase, List.get?] at h ⊢
      exact ih _ j sd h

/-- Every targeted monitor is joined, whatever the map contents. -/
lemma joinPhase_join_mem (doms ms : List String) :
    ∀ sd ∈ ms, PoolEv.joined sd ∈ (joinPhase doms ms).2 := by
  induction ms generalizing doms with
  | nil => simp
  | cons m rest ih =>
    intro sd hsd
    rcases List.mem_cons.1 hsd with rfl | h'
    · simp [joinPhase]
    · simp only [joinPhase]
      exact List.mem_cons_of_mem _ (List.mem_cons_of_mem _ (ih _ sd h'))

/-- C6: on every `_stopMonitors` run (the common path of `stopMonitoring`
and `close`), the first phase signals stop to all targeted monitors; joins
happen only after every stop signal; each monitor's pool-map entry is
removed right after its join, with a concurrent removal logged but not
fatal (every monitor still gets joined). -/
theorem C6_stop_protocol (doms monitors sds : List String) :
    (stopMonitors doms monitors).2.take monitors.length =
      monitors.map PoolEv.stopSignal ∧
    (∀ e ∈ (stopMonitors doms monitors).2.drop monitors.length,
       ∀ sd, e ≠ PoolEv.stopSignal sd) ∧
    (∀ j sd, (stopMonitors doms monitors).2.get? j = some (PoolEv.joined sd) →
       monitors.length ≤ j ∧
       ((stopMonitors doms monitors).2.get? (j + 1) =
          some (PoolEv.removedEntry sd) ∨
        (stopMonitors doms monitors).2.get? (j + 1) =
          some (PoolEv.removeMissingLogged sd))) ∧
    (∀ sd ∈ monitors, PoolEv.joined sd ∈ (stopMonitors doms monitors).2) ∧
    stopMonitoring doms sds =
      stopMonitors doms (doms.filter (fun m => sds.contains m)) ∧
    closePool doms = stopMonitors doms doms := by
  have htr : (stopMonitors doms monitors).2 =
      monitors.map PoolEv.stopSignal ++ (joinPhase doms monitors).2 := rfl
  have hlen : (monitors.map PoolEv.stopSignal).length = monitors.length :=
    List.length_map _ _
  refine ⟨?_, ?_, ?_, ?_, rfl, rfl⟩
  · rw [htr, ← hlen, List.take_left]
  · rw [htr, ← hlen, List.drop_left]
    exact joinPhase_no_stop doms monitors
  · intro j sd h
    rw [htr] at h
    have hj : monitors.length ≤ j := by
      by_contra hlt
      push_neg at hlt
      rw [List.get?_append (by rw [hlen]; exact hlt), List.get?_map] at h
      rcases monitors.get? j with _ | x <;> simp at h
    refine ⟨hj, ?_⟩
    rw [List.get?_append_right (by rw [hlen]; exact hj)] at h
    rw [htr, List.get?_append_right (by rw [hlen]; omega), hlen] at *
    have : j + 1 - monitors.length = (j - monitors.length) + 1 := by omega
    rw [this]
    exact joinPhase_join_next doms monitors _ sd h
  · intro sd hsd
    rw [htr]
    exact List.mem_append_right _ (joinPhase_join_mem doms monitors sd hsd)

/-- C6 witness: a concrete pool with monitors `a` (present) and `c` (already
removed concurrently): the trace starts with both stop signals, `a`'s join
is at index 2 and followed by its map removal, and `c` is joined as well. -/
theorem C6_stop_protocol_witness :
    (stopMonitors ["a", "b"] ["a", "c"]).2.take 2 =
      [PoolEv.stopSignal "a", PoolEv.stopSignal "c"] ∧
    2 ≤ 2 ∧
    ((stopMonitors ["a", "b"] ["a", "c"]).2.get? 3 =
       some (PoolEv.removedEntry "a") ∨
     (stopMonitors ["a", "b"] ["a", "c"]).2.get? 3 =
       some (PoolEv.removeMissingLogged "a")) ∧
    PoolEv.joined "c" ∈ (stopMonitors ["a", "b"] ["a", "c"]).2 := by
  have h := C6_stop_protocol ["a", "b"] ["a", "c"] ["a", "c"]
  have h2 := h.2.2.1 2 "a" (by decide)
  exact ⟨h.1, h2.1, h2.2, h.2.2.2.1 "c" (by decide)⟩

/-- A successful produce step yields a domain handle. -/
lemma stepProduce_none (d : Bool) (r : Except String Unit) (dom : Bool)
    (h : stepProduce d r = (dom, none)) : dom = true := by
  unfold stepProduce at h
  split at h
  · exact (Prod.mk.injEq .. ▸ h).1.symm
  · cases r with
    | ok _ => exact (Prod.mk.injEq .. ▸ h).1.symm
    | error e => simp at h

/-- A successful ISO step leaves `isIsoDomain` determined. -/
lemma stepIso_none (isIso : Option Bool) (pfx0 : Option String)
    (rISO : Except String Bool) (rDir : Except String String)
    (iso : Option Bool) (pfx : Option String)
    (h : stepIso isIso pfx0 rISO rDir = (iso, pfx, none)) : iso ≠ none := by
  unfold stepIso at h
  cases isIso with
  | some b => simp at h; simp [← h.1]
  | none =>
    cases rISO with
    | error e => simp at h
    | ok b =>
      cases b with
      | false => simp at h; simp [← h.1]
      | true =>
        cases rDir with
        | error e => simp at h
        | ok d => simp at h; simp [← h.1]

/-- A fully successful probe has produced the domain and determined the ISO
flag. -/
lemma probe_ok (s : MonitorState) (env : TickEnv)
    (h : (probe s env).err = none) :
    (probe s env).domain = true ∧ (probe s env).isIso ≠ none := by
  rcases hsp : stepProduce s.domain env.produce with ⟨dom, e1⟩
  cases e1 with
  | some e => simp [probe, hsp] at h
  | none =>
    have hdom := stepProduce_none _ _ _ hsp
    rcases hsi : stepIso s.isIsoDomain s.isoPfx env.isISO env.isoDir with ⟨iso, pfx, e2⟩
    cases e2 with
    | some e => simp [probe, hsp, hsi] at h
    | none =>
      have hiso := stepIso_none _ _ _ _ _ _ hsi
      rcases hsr : stepRest env.selftest env.readDelay env.stats pfx with ⟨ns, e3⟩
      simp [probe, hsp, hsi, hsr, hdom, hiso]

/-- The domain handle, once produced, is never dropped by a tick. -/
lemma probe_domain_mono (s : MonitorState) (env : TickEnv)
    (h : s.domain = true) : (probe s env).domain = true := by
  have hsp : stepProduce s.domain env.produce = (true, none) := by
    simp [stepProduce, h]
  rcases hsi : stepIso s.isIsoDomain s.isoPfx env.isISO env.isoDir with ⟨iso, pfx, e2⟩
  cases e2 with
  | some e => simp [probe, hsp, hsi]
  | none =>
    rcases hsr : stepRest env.selftest env.readDelay env.stats pfx with ⟨ns, e3⟩
    simp [probe, hsp, hsi, hsr]

/-- The ISO flag, once determined, never changes. -/
lemma probe_iso_mono (s : MonitorState) (env : TickEnv) (b : Bool)
    (h : s.isIsoDomain = some b) : (probe s env).isIso = some b := by
  rcases hsp : stepProduce s.domain env.produce with ⟨dom, e1⟩
  cases e1 with
  | some e => simp [probe, hsp, h]
  | none =>
    have hsi : stepIso s.isIsoDomain s.isoPfx env.isISO env.isoDir =
        (some b, s.isoPfx, none) := by
      simp [stepIso, h]
    rcases hsr : stepRest env.selftest env.readDelay env.stats s.isoPfx with ⟨ns, e3⟩
    simp [probe, hsp, hsi, hsr]

/-- A produce failure is the recorded probe error. -/
lemma probe_err_produce (s : MonitorState) (env : TickEnv) (e : String)
    (h1 : s.domain = false) (h2 : env.produce = .error e) :
    (probe s env).err = some e := by
  simp [probe, stepProduce, h1, h2]

/-- After a successful (or unnecessary) produce step the produce step
result is `(true, none)`. -/
lemma stepProduce_of_ok (s : MonitorState) (env : TickEnv)
    (h : s.domain = true ∨ env.produce = .ok ()) :
    stepProduce s.domain env.produce = (true, none) := by
  rcases h with h | h
  · simp [stepProduce, h]
  · cases hd : s.domain <;> simp [stepProduce, h, hd]

/-- An ISO-info failure (either `isISO()` or the images-dir query of an ISO
domain) is the recorded probe error. -/
lemma probe_err_iso (s : MonitorState) (env : TickEnv) (e : String)
    (hprod : s.domain = true ∨ env.produce = .ok ())
    (hiso : s.isIsoDomain = none)
    (h : env.isISO = .error e ∨ (env.isISO = .ok true ∧ env.isoDir = .error e)) :
    (probe s env).err = some e := by
  have hsp := stepProduce_of_ok s env hprod
  rcases h with h | ⟨h1, h2⟩
  · simp [probe, hsp, stepIso, hiso, h]
  · simp [probe, hsp, stepIso, hiso, h1, h2]

/-- A successful (or skipped) ISO step raises nothing. -/
lemma stepIso_of_ok (s : MonitorState) (env : TickEnv)
    (h : s.isIsoDomain.isSome ∨ env.isISO = .ok false ∨
      (env.isISO = .ok true ∧ ∃ d, env.isoDir = .ok d)) :
    ∃ iso pfx, stepIso s.isIsoDomain s.isoPfx env.isISO env.isoDir =
      (iso, pfx, none) := by
  rcases h with h | h | ⟨h1, d, h2⟩
  · obtain ⟨b, hb⟩ := Option.isSome_iff_exists.1 h
    exact ⟨some b, s.isoPfx, by simp [stepIso, hb]⟩
  · cases hiso : s.isIsoDomain with
    | some b => exact ⟨some b, s.isoPfx, by simp [stepIso, hiso]⟩
    | none => exact ⟨some false, s.isoPfx, by simp [stepIso, hiso, h]⟩
  · cases hiso : s.isIsoDomain with
    | some b => exact ⟨some b, s.isoPfx, by simp [stepIso, hiso]⟩
    | none => exact ⟨some true, some d, by simp [stepIso, hiso, h1, h2]⟩

/-- A selftest failure is the recorded probe error. -/
lemma probe_err_selftest (s : MonitorState) (env : TickEnv) (e : String)
    (hprod : s.domain = true ∨ env.produce = .ok ())
    (hiso : s.isIsoDomain.isSome ∨ env.isISO = .ok false ∨
      (env.isISO = .ok true ∧ ∃ d, env.isoDir = .ok d))
    (h : env.selftest = .error e) :
    (probe s env).err = some e := by
  have hsp := stepProduce_of_ok s env hprod
  obtain ⟨iso, pfx, hsi⟩ := stepIso_of_ok s env hiso
  simp [probe, hsp, hsi, stepRest, h]

/-- A read-delay failure is the recorded probe error. -/
lemma probe_err_readDelay (s : MonitorState) (env : TickEnv) (e : String)
    (hprod : s.domain = true ∨ env.produce = .ok ())
    (hiso : s.isIsoDomain.isSome ∨ env.isISO = .ok false ∨
      (env.isISO = .ok true ∧ ∃ d, env.isoDir = .ok d))
    (hself : env.selftest = .ok ())
    (h : env.readDelay = .error e) :
    (probe s env).err = some e := by
  have hsp := stepProduce_of_ok s env hprod
  obtain ⟨iso, pfx, hsi⟩ := stepIso_of_ok s env hiso
  simp [probe, hsp, hsi, stepRest, hself, h]

/-- A statistics-collection failure is the recorded probe error. -/
lemma probe_err_stats (s : MonitorState) (env : TickEnv) (e : String)
    (hprod : s.domain = true ∨ env.produce = .ok ())
    (hiso : s.isIsoDomain.isSome ∨ env.isISO = .ok false ∨
      (env.isISO = .ok true ∧ ∃ d, env.isoDir = .ok d))
    (hself : env.selftest = .ok ()) (hrd : ∃ d, env.readDelay = .ok d)
    (h : env.stats = .error e) :
    (probe s env).err = some e := by
  have hsp := stepProduce_of_ok s env hprod
  obtain ⟨iso, pfx, hsi⟩ := stepIso_of_ok s env hiso
  obtain ⟨d, hd⟩ := hrd
  simp [probe, hsp, hsi, stepRest, hself, hd, h]

/-- Notification events are emit events only. -/
lemma mem_emitEvs (s : MonitorState) (ns : DomainMonitorStatus) (env : TickEnv)
    (e : MonEv) (h : e ∈ emitEvs s ns env) :
    e = MonEv.emitStateChange ns.valid ∨ e = MonEv.emitFailedLogged := by
  unfold emitEvs at h
  split at h
  · split at h <;> simp at h <;> tauto
  · simp at h

/-- Acquisition events are acquire events only. -/
lemma mem_acqEvs (isIso : Option Bool) (ns : DomainMonitorStatus)
    (env : TickEnv) (e : MonEv) (h : e ∈ acqEvs isIso ns env) :
    e = MonEv.acquireAttempt ∨ e = MonEv.acquireFailedLogged := by
  unfold acqEvs at h
  split at h
  · split at h <;> simp at h <;> tauto
  · simp at h

/-- The acquisition attempt is emitted exactly when `_shouldAcquireHostId`
holds. -/
lemma acquire_mem_acqEvs (isIso : Option Bool) (ns : DomainMonitorStatus)
    (env : TickEnv) :
    MonEv.acquireAttempt ∈ acqEvs isIso ns env ↔
      shouldAcquireHostId isIso ns = true := by
  unfold acqEvs
  cases hg : shouldAcquireHostId isIso ns
  · simp
  · cases env.acquire <;> simp

/-- Tick events are notification, acquisition or completion events. -/
lemma mem_tick (s : MonitorState) (env : TickEnv) (e : MonEv)
    (h : e ∈ (monitorDomain s env).2) :
    e = MonEv.emitStateChange (tickStatus s env).valid ∨
    e = MonEv.emitFailedLogged ∨ e = MonEv.acquireAttempt ∨
    e = MonEv.acquireFailedLogged ∨ e = MonEv.tickDone := by
  unfold monitorDomain at h
  simp only [List.append_assoc, List.mem_append] at h
  rcases h with h | h | h
  · rcases mem_emitEvs _ _ _ _ h with h' | h' <;> tauto
  · rcases mem_acqEvs _ _ _ _ h with h' | h' <;> tauto
  · simp at h; tauto

/-- A tick never attempts a host-id release. -/
lemma tick_no_release (s : MonitorState) (env : TickEnv) :
    MonEv.releaseAttempt ∉ (monitorDomain s env).2 := by
  intro h
  rcases mem_tick s env _ h with h' | h' | h' | h' | h' <;> simp at h'

/-- Every tick emits exactly one completion event. -/
lemma tick_count_tickDone (s : MonitorState) (env : TickEnv) :
    (monitorDomain s env).2.count MonEv.tickDone = 1 := by
  unfold monitorDomain
  simp only [List.count_append]
  have h1 : (emitEvs s (tickStatus s env) env).count MonEv.tickDone = 0 := by
    rw [List.count_eq_zero]
    intro h
    rcases mem_emitEvs _ _ _ _ h with h' | h' <;> simp at h'
  have h2 : (acqEvs (probe s env).isIso (tickStatus s env) env).count
      MonEv.tickDone = 0 := by
    rw [List.count_eq_zero]
    intro h
    rcases mem_acqEvs _ _ _ _ h with h' | h' <;> simp at h'
  simp [h1, h2]

/-- Unfolding of a loop step with the stop event unset. -/
lemma monitorLoop_cons (s : MonitorState) (env : TickEnv) (rest : List TickEnv)
    (h : env.stopSet = false) :
    monitorLoop s (env :: rest) =
      ((monitorLoop (monitorDomain s env).1 rest).1,
       (monitorDomain s env).2 ++ (monitorLoop (monitorDomain s env).1 rest).2) := by
  simp [monitorLoop, h]

/-- With the stop event unset throughout, the loop runs one tick per
scheduled environment. -/
lemma loop_count_tickDone (envs : List TickEnv) :
    ∀ s, (∀ t ∈ envs, t.stopSet = false) →
      (monitorLoop s envs).2.count MonEv.tickDone = envs.length := by
  induction envs with
  | nil => intro s h; simp [monitorLoop]
  | cons env rest ih =>
    intro s h
    have h0 : env.stopSet = false := h env (List.mem_cons_self _ _)
    rw [monitorLoop_cons s env rest h0]
    simp only [List.count_append, tick_count_tickDone,
      ih _ (fun t ht => h t (List.mem_cons_of_mem _ ht))]
    simp [Nat.add_comm]

/-- The loop itself never attempts a host-id release. -/
lemma loop_count_release (envs : List TickEnv) :
    ∀ s, (monitorLoop s envs).2.count MonEv.releaseAttempt = 0 := by
  induction envs with
  | nil => intro s; simp [monitorLoop]
  | cons env rest ih =>
    intro s
    cases hst : env.stopSet
    · rw [monitorLoop_cons s env rest hst]
      simp only [List.count_append, ih]
      rw [List.count_eq_zero.2 (tick_no_release s env)]
    · simp [monitorLoop, hst]

/-- The loop preserves a produced domain handle. -/
lemma loop_domain_mono (envs : List TickEnv) :
    ∀ s, s.domain = true → (monitorLoop s envs).1.domain = true := by
  induction envs with
  | nil => intro s h; simpa [monitorLoop] using h
  | cons env rest ih =>
    intro s h
    cases hst : env.stopSet
    · rw [monitorLoop_cons s env rest hst]
      exact ih _ (probe_domain_mono s env h)
    · simpa [monitorLoop, hst] using h

/-- The loop preserves a determined ISO flag. -/
lemma loop_iso_mono (envs : List TickEnv) :
    ∀ s b, s.isIsoDomain = some b →
      (monitorLoop s envs).1.isIsoDomain = some b := by
  induction envs with
  | nil => intro s b h; simpa [monitorLoop] using h
  | cons env rest ih =>
    intro s b h
    cases hst : env.stopSet
    · rw [monitorLoop_cons s env rest hst]
      exact ih _ b (probe_iso_mono s env b h)
    · simpa [monitorLoop, hst] using h

/-- A tick that attempts acquisition leaves the task with a produced domain
handle and a determined non-ISO flag. -/
lemma tick_acquire (s : MonitorState) (env : TickEnv)
    (h : MonEv.acquireAttempt ∈ (monitorDomain s env).2) :
    (monitorDomain s env).1.domain = true ∧
    (monitorDomain s env).1.isIsoDomain = some false := by
  have hacq : MonEv.acquireAttempt ∈
      acqEvs (probe s env).isIso (tickStatus s env) env := by
    unfold monitorDomain at h
    simp only [List.append_assoc, List.mem_append] at h
    rcases h with h | h | h
    · rcases mem_emitEvs _ _ _ _ h with h' | h' <;> simp at h'
    · exact h
    · simp at h
  have hguard := (acquire_mem_acqEvs _ _ _).1 hacq
  unfold shouldAcquireHostId at hguard
  simp only [Bool.and_eq_true, bne_iff_ne] at hguard
  have herr : (probe s env).err = none := by
    have hv : (tickStatus s env).valid = true := hguard.1.2
    have : (probe s env).err.isNone = true := hv
    exact Option.isNone_iff_eq_none.1 this
  obtain ⟨hdom, hiso⟩ := probe_ok s env herr
  have hfalse : (probe s env).isIso = some false := by
    cases hi : (probe s env).isIso with
    | none => exact absurd hi hiso
    | some b =>
      cases b with
      | false => rfl
      | true => exact absurd hi (by simpa [hi] using hguard.1.1)
  exact ⟨hdom, hfalse⟩

/-- An acquisition attempt anywhere in the loop leaves the final state with
a produced domain handle and a determined non-ISO flag. -/
lemma loop_acquire (envs : List TickEnv) :
    ∀ s, MonEv.acquireAttempt ∈ (monitorLoop s envs).2 →
      (monitorLoop s envs).1.domain = true ∧
      (monitorLoop s envs).1.isIsoDomain = some false := by
  induction envs with
  | nil => intro s h; simp [monitorLoop] at h
  | cons env rest ih =>
    intro s h
    cases hst : env.stopSet
    · rw [monitorLoop_cons s env rest hst] at h ⊢
      simp only [List.mem_append] at h
      rcases h with h | h
      · have ht := tick_acquire s env h
        exact ⟨loop_domain_mono rest _ ht.1, loop_iso_mono rest _ false ht.2⟩
      · exact ih _ h
    · simp [monitorLoop, hst] at h

/-- Shutdown events are release events only. -/
lemma mem_relEvs (s : MonitorState) (rel : Except String Unit) (e : MonEv)
    (h : e ∈ relEvs s rel) :
    e = MonEv.releaseAttempt ∨ e = MonEv.releaseFailedLogged := by
  unfold relEvs at h
  split at h
  · split at h <;> simp at h <;> tauto
  · simp at h

/-- The release attempt is emitted exactly when `_shouldReleaseHostId`
holds. -/
lemma release_mem_relEvs (s : MonitorState) (rel : Except String Unit) :
    MonEv.releaseAttempt ∈ relEvs s rel ↔ shouldReleaseHostId s = true := by
  unfold relEvs
  cases hg : shouldReleaseHostId s
  · simp
  · cases rel <;> simp

/-- The shutdown attempts at most one release (exactly one when
`_shouldReleaseHostId` holds). -/
lemma relEvs_count (s : MonitorState) (rel : Except String Unit) :
    (relEvs s rel).count MonEv.releaseAttempt =
      if shouldReleaseHostId s then 1 else 0 := by
  unfold relEvs
  split
  · cases rel <;> simp
  · simp

/-- C2: the monitor task attempts a host-id release at shutdown if and only
if the domain handle was produced and the domain is not known to be an ISO
domain (`self.domain and not self.isIsoDomain`); at most one release is ever
attempted, and a task that attempted a host-id acquisition attempts exactly
one release at shutdown; a release failure is logged, never raised. -/
theorem C2_hostid_release (envs : List TickEnv) (rel : Except String Unit) :
    (MonEv.releaseAttempt ∈ (runMonitor envs rel).2 ↔
      ((runMonitor envs rel).1.domain = true ∧
       (runMonitor envs rel).1.isIsoDomain ≠ some true)) ∧
    (runMonitor envs rel).2.count MonEv.releaseAttempt ≤ 1 ∧
    (MonEv.acquireAttempt ∈ (runMonitor envs rel).2 →
      (runMonitor envs rel).2.count MonEv.releaseAttempt = 1) ∧
    (∀ e, rel = Except.error e →
      MonEv.releaseAttempt ∈ (runMonitor envs rel).2 →
      MonEv.releaseFailedLogged ∈ (runMonitor envs rel).2) := by
  have hnl : MonEv.releaseAttempt ∉ (monitorLoop initState envs).2 :=
    List.count_eq_zero.1 (loop_count_release envs initState)
  have hcnt : (runMonitor envs rel).2.count MonEv.releaseAttempt =
      if shouldReleaseHostId (monitorLoop initState envs).1 then 1 else 0 := by
    show ((monitorLoop initState envs).2 ++
      relEvs (monitorLoop initState envs).1 rel).count MonEv.releaseAttempt = _
    rw [List.count_append, loop_count_release envs initState,
      relEvs_count _ rel, Nat.zero_add]
  have hmemiff : MonEv.releaseAttempt ∈ (runMonitor envs rel).2 ↔
      shouldReleaseHostId (monitorLoop initState envs).1 = true := by
    show MonEv.releaseAttempt ∈ ((monitorLoop initState envs).2 ++
      relEvs (monitorLoop initState envs).1 rel) ↔ _
    rw [List.mem_append]
    constructor
    · intro h
      rcases h with h | h
      · exact absurd h hnl
      · exact (release_mem_relEvs _ rel).1 h
    · intro h
      exact Or.inr ((release_mem_relEvs _ rel).2 h)
  refine ⟨?_, ?_, ?_, ?_⟩
  · rw [hmemiff]
    show shouldReleaseHostId (monitorLoop initState envs).1 = true ↔
      (monitorLoop initState envs).1.domain = true ∧
      (monitorLoop initState envs).1.isIsoDomain ≠ some true
    simp [shouldReleaseHostId, Bool.and_eq_true, bne_iff_ne]
  · rw [hcnt]; split <;> simp
  · intro h
    have hloop : MonEv.acquireAttempt ∈ (monitorLoop initState envs).2 := by
      rcases List.mem_append.1 h with h' | h'
      · exact h'
      · rcases mem_relEvs _ rel _ h' with h'' | h'' <;> simp at h''
    obtain ⟨hd, hi⟩ := loop_acquire envs initState hloop
    rw [hcnt, if_pos (by simp [shouldReleaseHostId, hd, hi])]
  · intro e he h
    have hrel : shouldReleaseHostId (monitorLoop initState envs).1 = true :=
      hmemiff.1 h
    show MonEv.releaseFailedLogged ∈ ((monitorLoop initState envs).2 ++
      relEvs (monitorLoop initState envs).1 rel)
    refine List.mem_append_right _ ?_
    simp [relEvs, hrel, he]

/-- C2 witness: a single successful tick acquires the host-id and the run
attempts exactly one release at shutdown. -/
theorem C2_hostid_release_witness :
    (runMonitor [tickOkEnv] (Except.ok ())).2.count MonEv.releaseAttempt = 1 :=
  (C2_hostid_release [tickOkEnv] (Except.ok ())).2.2.1 (by decide)

/-- C4: on every tick, `valid` is set exactly when no error was recorded;
an exception raised while producing the domain handle, querying ISO info,
running the selftest, measuring the read delay or collecting statistics
becomes `nextStatus.error`; and such errors never terminate the task — with
the stop signal unset the loop runs every scheduled tick, while a set stop
signal ends it. -/
theorem C4_monitor_error_capture (s : MonitorState) (env : TickEnv)
    (envs : List TickEnv) :
    ((monitorDomain s env).1.status.valid = true ↔
      (monitorDomain s env).1.status.error = none) ∧
    (∀ e, s.domain = false → env.produce = .error e →
      (monitorDomain s env).1.status.error = some e) ∧
    (∀ e, (s.domain = true ∨ env.produce = .ok ()) → s.isIsoDomain = none →
      (env.isISO = .error e ∨ (env.isISO = .ok true ∧ env.isoDir = .error e)) →
      (monitorDomain s env).1.status.error = some e) ∧
    (∀ e, (s.domain = true ∨ env.produce = .ok ()) →
      (s.isIsoDomain.isSome ∨ env.isISO = .ok false ∨
        (env.isISO = .ok true ∧ ∃ d, env.isoDir = .ok d)) →
      env.selftest = .error e →
      (monitorDomain s env).1.status.error = some e) ∧
    (∀ e, (s.domain = true ∨ env.produce = .ok ()) →
      (s.isIsoDomain.isSome ∨ env.isISO = .ok false ∨
        (env.isISO = .ok true ∧ ∃ d, env.isoDir = .ok d)) →
      env.selftest = .ok () → env.readDelay = .error e →
      (monitorDomain s env).1.status.error = some e) ∧
    (∀ e, (s.domain = true ∨ env.produce = .ok ()) →
      (s.isIsoDomain.isSome ∨ env.isISO = .ok false ∨
        (env.isISO = .ok true ∧ ∃ d, env.isoDir = .ok d)) →
      env.selftest = .ok () → (∃ d, env.readDelay = .ok d) →
      env.stats = .error e →
      (monitorDomain s env).1.status.error = some e) ∧
    ((∀ t ∈ envs, t.stopSet = false) →
      (monitorLoop s envs).2.count MonEv.tickDone = envs.length) ∧
    (∀ env' rest, env'.stopSet = true → monitorLoop s (env' :: rest) = (s, [])) := by
  refine ⟨?_, ?_, ?_, ?_, ?_, ?_, loop_count_tickDone envs s, ?_⟩
  · show (probe s env).err.isNone = true ↔ (probe s env).err = none
    exact Option.isNone_iff_eq_none
  · exact fun e h1 h2 => probe_err_produce s env e h1 h2
  · exact fun e h1 h2 h3 => probe_err_iso s env e h1 h2 h3
  · exact fun e h1 h2 h3 => probe_err_selftest s env e h1 h2 h3
  · exact fun e h1 h2 h3 h4 => probe_err_readDelay s env e h1 h2 h3 h4
  · exact fun e h1 h2 h3 h4 h5 => probe_err_stats s env e h1 h2 h3 h4 h5
  · intro env' rest h
    simp [monitorLoop, h]

/-- C4 witness: a failing produce call is recorded as the tick error, and a
two-tick schedule with the stop signal unset runs both ticks. -/
theorem C4_monitor_error_capture_witness :
    (monitorDomain initState tickFailEnv).1.status.error =
      some "produce-failed" ∧
    (monitorLoop initState [tickOkEnv, tickFailEnv]).2.count MonEv.tickDone = 2 := by
  refine ⟨(C4_monitor_error_capture initState tickFailEnv []).2.1
    "produce-failed" rfl rfl, ?_⟩
  exact (C4_monitor_error_capture initState tickFailEnv
    [tickOkEnv, tickFailEnv]).2.2.2.2.2.2.1 (by decide)

/-- C5: a tick requests host-id acquisition if and only if the domain is not
known to be an ISO domain, `nextStatus.valid` holds and
`nextStatus.hasHostId` is `False`; the acquisition outcome never influences
the resulting task state (failures are logged, not raised, so the next tick
retries), and a failed attempt is logged. -/
theorem C5_acquire_condition (s : MonitorState) (env : TickEnv) :
    (MonEv.acquireAttempt ∈ (monitorDomain s env).2 ↔
      ((monitorDomain s env).1.isIsoDomain ≠ some true ∧
       (monitorDomain s env).1.status.valid = true ∧
       (monitorDomain s env).1.status.hasHostId = false)) ∧
    (∀ a b, (monitorDomain s { env with acquire := a }).1 =
      (monitorDomain s { env with acquire := b }).1) ∧
    (∀ e, env.acquire = .error e →
      MonEv.acquireAttempt ∈ (monitorDomain s env).2 →
      MonEv.acquireFailedLogged ∈ (monitorDomain s env).2) := by
  have hmem : MonEv.acquireAttempt ∈ (monitorDomain s env).2 ↔
      MonEv.acquireAttempt ∈ acqEvs (probe s env).isIso (tickStatus s env) env := by
    constructor
    · intro h
      unfold monitorDomain at h
      simp only [List.append_assoc, List.mem_append] at h
      rcases h with h | h | h
      · rcases mem_emitEvs _ _ _ _ h with h' | h' <;> simp at h'
      · exact h
      · simp at h
    · intro h
      unfold monitorDomain
      simp only [List.append_assoc, List.mem_append]
      exact Or.inr (Or.inl h)
  refine ⟨?_, fun a b => rfl, ?_⟩
  · rw [hmem, acquire_mem_acqEvs]
    show shouldAcquireHostId (probe s env).isIso (tickStatus s env) = true ↔
      ((probe s env).isIso ≠ some true ∧ (tickStatus s env).valid = true ∧
       (tickStatus s env).hasHostId = false)
    unfold shouldAcquireHostId
    simp [Bool.and_eq_true, bne_iff_ne, and_assoc]
  · intro e he h
    have hguard := (acquire_mem_acqEvs _ _ _).1 (hmem.1 h)
    unfold monitorDomain
    simp only [List.append_assoc, List.mem_append]
    refine Or.inr (Or.inl ?_)
    simp [acqEvs, hguard, he]

/-- C5 witness: a fully successful tick with no held host-id requests
acquisition. -/
theorem C5_acquire_condition_witness :
    MonEv.acquireAttempt ∈ (monitorDomain initState tickOkEnv).2 :=
  (C5_acquire_condition initState tickOkEnv).1.mpr
    ⟨by decide, by decide, by decide⟩

/-- `seqFrom` is the one-step `List.range'`. -/
lemma seqFrom_eq_range' (k : Nat) : ∀ v, seqFrom v k = List.range' v k := by
  induction k with
  | zero => intro v; rfl
  | succ k ih => intro v; simp [seqFrom, List.range', ih]

/-- `seqFrom` from zero is `List.range`. -/
lemma seqFrom_zero (k : Nat) : seqFrom 0 k = List.range k := by
  rw [seqFrom_eq_range', List.range_eq_range']

/-- Bounds for membership in `seqFrom`. -/
lemma mem_seqFrom (k : Nat) : ∀ v x, x ∈ seqFrom v k → v ≤ x ∧ x < v + k := by
  induction k with
  | zero => intro v x h; simp [seqFrom] at h
  | succ k ih =>
    intro v x h
    rcases List.mem_cons.1 h with rfl | h'
    · omega
    · have := ih (v + 1) x h'
      omega

/-- `writesOf` on a write event. -/
lemma writesOf_wrote (v : Nat) (tr : List ScanEv) :
    writesOf (ScanEv.wrote v :: tr) = v :: writesOf tr := rfl

/-- `writesOf` on a recording event. -/
lemma writesOf_recorded (a b : String) (tr : List ScanEv) :
    writesOf (ScanEv.recorded a b :: tr) = writesOf tr := rfl

/-- The values a scan attempts to write are consecutive from its start
value, at most one per remaining loop iteration. -/
lemma scan_writes (env : Nat → Except IOErrno (List String)) :
    ∀ fuel v vals, ∃ k, k ≤ fuel ∧
      writesOf (scanGo env fuel v vals).1 = seqFrom v k := by
  intro fuel
  induction fuel with
  | zero => intro v vals; exact ⟨0, Nat.le_refl 0, rfl⟩
  | succ fuel ih =>
    intro v vals
    rw [scanGo]
    cases henv : env v with
    | error e =>
      refine ⟨1, by omega, ?_⟩
      cases e <;> simp [isStopErrno, writesOf, seqFrom]
    | ok elems =>
      rcases elems with _ | ⟨x, _ | ⟨y, _ | ⟨z, t⟩⟩⟩
      · exact ⟨1, by omega, by simp [writesOf, seqFrom]⟩
      · exact ⟨1, by omega, by simp [writesOf, seqFrom]⟩
      · obtain ⟨k, hk, hw⟩ := ih (v + 1) (dictInsert x y vals)
        refine ⟨k + 1, by omega, ?_⟩
        simp [writesOf_wrote, writesOf_recorded, hw, seqFrom]
      · exact ⟨1, by omega, by simp [writesOf, seqFrom]⟩

/-- Every successful write is immediately followed by the recording of the
`(name, numeric)` pair read back from the option file. -/
lemma scan_recorded (env : Nat → Except IOErrno (List String)) :
    ∀ fuel v vals j w a b,
      (scanGo env fuel v vals).1.get? j = some (ScanEv.wrote w) →
      env w = .ok [a, b] →
      (scanGo env fuel v vals).1.get? (j + 1) = some (ScanEv.recorded a b) := by
  intro fuel
  induction fuel with
  | zero => intro v vals j w a b hj hw; simp [scanGo] at hj
  | succ fuel ih =>
    intro v vals j w a b hj hw
    rw [scanGo] at hj ⊢
    cases henv : env v with
    | error e =>
      simp only [henv] at hj
      exfalso
      rcases j with _ | j
      · have hvw : v = w := by
          cases e <;> simp [isStopErrno] at hj <;> omega
        rw [← hvw, henv] at hw
        simp at hw
      · cases e <;> simp [isStopErrno] at hj
    | ok elems =>
      simp only [henv] at hj
      rcases elems with _ | ⟨x, _ | ⟨y, _ | ⟨z, t⟩⟩⟩
      · exfalso
        rcases j with _ | j <;> simp at hj
        rw [← hj, henv] at hw; simp at hw
      · exfalso
        rcases j with _ | j <;> simp at hj
        rw [← hj, henv] at hw; simp at hw
      · rcases j with _ | _ | j
        · simp only [List.get?] at hj ⊢
          injection hj with hj'
          injection hj' with hvw
          subst hvw
          rw [henv] at hw
          injection hw with hw'
          injection hw' with h1 hrest
          injection hrest with h2 _
          subst h1; subst h2
          rfl
        · exfalso; simp at hj
        · simp only [List.get?] at hj ⊢
          exact ih (v + 1) (dictInsert x y vals) j w a b hj hw
      · exfalso
        rcases j with _ | j <;> simp at hj
        rw [← hj, henv] at hw; simp at hw

/-- A write failing with `EINVAL`, `EPERM` or `EACCES` ends the scan for
the option: it is the last attempted value and the scan still returns its
dict. -/
lemma scan_stop (env : Nat → Except IOErrno (List String)) :
    ∀ fuel v vals w e, isStopErrno e = true → env w = .error e →
      w ∈ writesOf (scanGo env fuel v vals).1 →
      writesOf (scanGo env fuel v vals).1 = seqFrom v (w - v + 1) ∧
      ∃ r, (scanGo env fuel v vals).2 = .ok r := by
  intro fuel
  induction fuel with
  | zero => intro v vals w e hse he hm; simp [scanGo, writesOf] at hm
  | succ fuel ih =>
    intro v vals w e hse he hm
    rw [scanGo] at hm ⊢
    cases henv : env v with
    | error e' =>
      simp only [henv] at hm
      have hvw : w = v := by
        cases e' <;> simp [isStopErrno, writesOf] at hm <;> omega
      subst hvw
      rw [henv] at he
      injection he with he'
      subst he'
      refine ⟨?_, vals, ?_⟩ <;>
        simp [hse, writesOf, seqFrom, Nat.sub_self]
    | ok elems =>
      simp only [henv] at hm
      rcases elems with _ | ⟨x, _ | ⟨y, _ | ⟨z, t⟩⟩⟩
      · exfalso
        simp [writesOf] at hm
        rw [hm, henv] at he; simp at he
      · exfalso
        simp [writesOf] at hm
        rw [hm, henv] at he; simp at he
      · have hm' : w ∈ writesOf (scanGo env fuel (v + 1) (dictInsert x y vals)).1 := by
          rw [writesOf_wrote, writesOf_recorded] at hm
          rcases List.mem_cons.1 hm with rfl | hm'
          · rw [henv] at he; simp at he
          · exact hm'
        obtain ⟨hw', hres⟩ := ih (v + 1) (dictInsert x y vals) w e hse he hm'
        have hle : v + 1 ≤ w := by
          have := mem_seqFrom _ _ _ (hw' ▸ hm')
          omega
        refine ⟨?_, hres⟩
        have heq : w - v + 1 = (w - (v + 1) + 1) + 1 := by omega
        rw [writesOf_wrote, writesOf_recorded, hw', heq]
        simp [seqFrom]
      · exfalso
        simp [writesOf] at hm
        rw [hm, henv] at he; simp at he

/-- Any other IOError of a write is re-raised out of the scan. -/
lemma scan_raise (env : Nat → Except IOErrno (List String)) :
    ∀ fuel v vals w c, env w = .error (.other c) →
      w ∈ writesOf (scanGo env fuel v vals).1 →
      (scanGo env fuel v vals).2 = .error (ScanErr.ioError c w) := by
  intro fuel
  induction fuel with
  | zero => intro v vals w c he hm; simp [scanGo, writesOf] at hm
  | succ fuel ih =>
    intro v vals w c he hm
    rw [scanGo] at hm ⊢
    cases henv : env v with
    | error e' =>
      simp only [henv] at hm
      have hvw : w = v := by
        cases e' <;> simp [isStopErrno, writesOf] at hm <;> omega
      subst hvw
      rw [henv] at he
      injection he with he'
      subst he'
      simp [isStopErrno]
    | ok elems =>
      simp only [henv] at hm
      rcases elems with _ | ⟨x, _ | ⟨y, _ | ⟨z, t⟩⟩⟩
      · exfalso
        simp [writesOf] at hm
        rw [hm, henv] at he; simp at he
      · exfalso
        simp [writesOf] at hm
        rw [hm, henv] at he; simp at he
      · have hm' : w ∈ writesOf (scanGo env fuel (v + 1) (dictInsert x y vals)).1 := by
          rw [writesOf_wrote, writesOf_recorded] at hm
          rcases List.mem_cons.1 hm with rfl | hm'
          · rw [henv] at he; simp at he
          · exact hm'
        exact ih (v + 1) (dictInsert x y vals) w c he hm'
      · exfalso
        simp [writesOf] at hm
        rw [hm, henv] at he; simp at he

/-- `_bond_opts_name2numeric` scans exactly the non-mode option files whose
current content has exactly two whitespace-separated elements. -/
lemma name2numeric_keys (mp : String)
    (env : String → Nat → Except IOErrno (List String)) :
    ∀ files m, bond_opts_name2numeric mp files env = .ok m →
      m.map Prod.fst =
        (files.filter
          (fun pe => !(pe.1 == mp) && (pe.2.length == 2))).map Prod.fst := by
  intro files
  induction files with
  | nil =>
    intro m h
    rw [bond_opts_name2numeric] at h
    injection h with h'
    simp [← h']
  | cons pe rest ih =>
    intro m h
    obtain ⟨p, elements⟩ := pe
    rw [bond_opts_name2numeric] at h
    by_cases hp : p = mp
    · rw [if_pos hp] at h
      rw [ih m h]
      simp [List.filter_cons, hp]
    · rw [if_neg hp] at h
      by_cases hl : elements.length = 2
      · rw [if_pos hl] at h
        cases hscan : (name2numeric_scan (env p)).2 with
        | error e => rw [hscan] at h; simp at h
        | ok vals =>
          rw [hscan] at h
          cases hrec : bond_opts_name2numeric mp rest env with
          | error e => rw [hrec] at h; simp at h
          | ok acc =>
            rw [hrec] at h
            injection h with h'
            rw [← h']
            simp only [List.map_cons]
            rw [ih acc hrec]
            simp [List.filter_cons, hp, hl]
      · rw [if_neg hl] at h
        rw [ih m h]
        simp [List.filter_cons, hp, hl]

/-- C8: the probe scans only non-mode option files whose current content
has exactly two whitespace-separated elements; for each scanned option it
writes the numeric values in order from 0, never past 31, recording the
`(name, numeric)` pair read back after each successful write; a write error
of `EINVAL`, `EPERM` or `EACCES` ends the scan for that option (the option
still yields its dict), and any other IOError is re-raised. -/
theorem C8_name2numeric_scan (mp p : String)
    (files : List (String × List String))
    (env : String → Nat → Except IOErrno (List String)) :
    (∀ m, bond_opts_name2numeric mp files env = .ok m →
       m.map Prod.fst =
         (files.filter
           (fun pe => !(pe.1 == mp) && (pe.2.length == 2))).map Prod.fst) ∧
    (∃ k, k ≤ 32 ∧ writesOf (name2numeric_scan (env p)).1 = List.range k) ∧
    (∀ j w a b,
       (name2numeric_scan (env p)).1.get? j = some (ScanEv.wrote w) →
       env p w = .ok [a, b] →
       (name2numeric_scan (env p)).1.get? (j + 1) =
         some (ScanEv.recorded a b)) ∧
    (∀ w e, isStopErrno e = true → env p w = .error e →
       w ∈ writesOf (name2numeric_scan (env p)).1 →
       writesOf (name2numeric_scan (env p)).1 = List.range (w + 1) ∧
       ∃ r, (name2numeric_scan (env p)).2 = .ok r) ∧
    (∀ w c, env p w = .error (.other c) →
       w ∈ writesOf (name2numeric_scan (env p)).1 →
       (name2numeric_scan (env p)).2 = .error (ScanErr.ioError c w)) := by
  refine ⟨name2numeric_keys mp env files, ?_, ?_, ?_, ?_⟩
  · obtain ⟨k, hk, hw⟩ := scan_writes (env p) 32 0 []
    exact ⟨k, hk, by rw [← seqFrom_zero k]; exact hw⟩
  · intro j w a b hj hw
    exact scan_recorded (env p) 32 0 [] j w a b hj hw
  · intro w e hse he hm
    obtain ⟨h1, h2⟩ := scan_stop (env p) 32 0 [] w e hse he hm
    refine ⟨?_, h2⟩
    show writesOf (scanGo (env p) 32 0 []).1 = List.range (w + 1)
    rw [h1, show w - 0 + 1 = w + 1 from by omega, seqFrom_zero]
  · intro w c hc hm
    exact scan_raise (env p) 32 0 [] w c hc hm

/-- C8 witness: under a sysfs behaviour accepting values 0..2 and failing
with `EINVAL` from 3 on, the first write is followed by its recorded pair,
the attempted writes are exactly 0..3, and the scan still returns a dict. -/
theorem C8_name2numeric_scan_witness :
    (name2numeric_scan (c8Env "x")).1.get? 1 =
      some (ScanEv.recorded "opt" "0") ∧
    writesOf (name2numeric_scan (c8Env "x")).1 = List.range 4 ∧
    ∃ r, (name2numeric_scan (c8Env "x")).2 = .ok r := by
  have h := C8_name2numeric_scan "mode" "x" [] c8Env
  refine ⟨h.2.2.1 0 0 "opt" "0" (by decide) (by rfl), ?_, ?_⟩
  · exact (h.2.2.2.1 3 IOErrno.einval (by decide) (by rfl) (by decide)).1
  · exact (h.2.2.2.1 3 IOErrno.einval (by decide) (by rfl) (by decide)).2

end Vdsm
